import Mathlib

/-! Verification of the AquaChain aquaculture supply-chain dashboard.

This file gives a shallow embedding of the core logic of this repository:

* `network_model.py`: `build_supply_chain_graph`, `compute_payment_lead_times`,
  `compute_working_capital`, `detect_bottlenecks` (and a model of that
  global-name resolution of that module, since it imports only `networkx`);
* `app.py`: the credential utilities `hash_pw` (SHA-256 hex digest),
  `load_users`, `save_user`, `validate_login`, the inline analytics of
  `analytics_center`, the demo dataset `load_demo_csv` and the CSV-loading
  pipeline around `pd.read_csv`.

Dataframes are embedded as lists of records; date columns that the code
subtracts (`pd.to_datetime(...) ... .dt.days`) are embedded as integer day
numbers, so a difference of dates is integer subtraction; `.mean()` is exact
rational arithmetic.  A `networkx.DiGraph` is embedded as association lists
of nodes and directed edges, each carrying a Python-style attribute
dictionary (an association list of string keys); `add_node`/`add_edge`
follow networkx semantics: re-adding an existing node or edge updates its
attribute dictionary key-wise instead of duplicating it, and `add_edge`
inserts missing endpoint nodes.
-/

/-- A value stored in a node/edge attribute dictionary: the code stores
strings (ids, dates, payment terms) and numbers (costs). -/
inductive AttrVal where
  | s (v : String)
  | i (v : Int)
deriving DecidableEq, Repr

/-- A Python attribute dictionary: association list with string keys. -/
abbrev AttrDict := List (String × AttrVal)

/-- `d[k] = v` for a Python dict: overwrite the binding in place when the
key is present, append it otherwise. -/
def updAttr (d : AttrDict) (kv : String × AttrVal) : AttrDict :=
  if d.any (fun p => p.1 == kv.1) then
    d.map (fun p => if p.1 == kv.1 then kv else p)
  else d ++ [kv]

/-- `d.update(kvs)` for a Python dict. -/
def updAttrs (d : AttrDict) (kvs : AttrDict) : AttrDict :=
  kvs.foldl updAttr d

/-- Dictionary lookup `d.get(k)`. -/
def lookupAttr (k : String) (d : AttrDict) : Option AttrVal :=
  (d.find? (fun p => p.1 == k)).map (fun p => p.2)

/-- A `networkx.DiGraph`: nodes and directed edges in insertion order,
each with an attribute dictionary. -/
structure DiGraph where
  nodes : List (String × AttrDict)
  edges : List ((String × String) × AttrDict)
deriving DecidableEq, Repr

def DiGraph.empty : DiGraph := ⟨[], []⟩

def nodeKeys (G : DiGraph) : List String := G.nodes.map (fun p => p.1)

def edgeKeys (G : DiGraph) : List (String × String) := G.edges.map (fun p => p.1)

/-- `G.add_node(n, **attrs)`: update the attribute dictionary of an
existing node, else append a fresh node. -/
def add_node (G : DiGraph) (n : String) (attrs : AttrDict) : DiGraph :=
  if n ∈ nodeKeys G then
    { G with nodes := G.nodes.map (fun p => if p.1 == n then (p.1, updAttrs p.2 attrs) else p) }
  else
    { G with nodes := G.nodes ++ [(n, updAttrs [] attrs)] }

/-- Insert a node with an empty attribute dictionary unless it already
exists (what `add_edge` does to missing endpoints). -/
def ensureNode (G : DiGraph) (n : String) : DiGraph :=
  if n ∈ nodeKeys G then G else { G with nodes := G.nodes ++ [(n, [])] }

/-- `G.add_edge(u, v, **attrs)`: insert missing endpoints with empty
attribute dictionaries, then update or append the edge `(u, v)`. -/
def add_edge (G : DiGraph) (u v : String) (attrs : AttrDict) : DiGraph :=
  let G2 := ensureNode (ensureNode G u) v
  if (u, v) ∈ edgeKeys G2 then
    { G2 with edges := G2.edges.map (fun p => if p.1 == (u, v) then (p.1, updAttrs p.2 attrs) else p) }
  else
    { G2 with edges := G2.edges ++ [((u, v), updAttrs [] attrs)] }

/-- A row of the `transactions` dataframe, the columns
`build_supply_chain_graph` reads. -/
structure TxnRec where
  from_entity : String
  to_entity : String
  batch_id : String
  transaction_date : String
  payment_term : String
deriving DecidableEq, Repr

/-- A row of the `batches` dataframe, the columns the code reads. -/
structure BatchRec where
  batch_id : String
  origin : String
deriving DecidableEq, Repr

/-- A row of the `logistics` dataframe, the columns `build_supply_chain_graph`
reads (`move_date`, `logistics_cost`). -/
structure LogRec where
  from_location : String
  to_location : String
  move_date : String
  logistics_cost : Int
deriving DecidableEq, Repr

/-- Attribute dictionary of a transaction edge:
batch_id, date (the transaction_date column), payment_term. -/
def txnEdgeAttrs (r : TxnRec) : AttrDict :=
  [("batch_id", .s r.batch_id), ("date", .s r.transaction_date),
   ("payment_term", .s r.payment_term)]

/-- Attribute dictionary of a logistics edge:
date (the move_date column), cost (the logistics_cost column). -/
def logEdgeAttrs (r : LogRec) : AttrDict :=
  [("date", .s r.move_date), ("cost", .i r.logistics_cost)]

/-- One iteration of the batches loop of `build_supply_chain_graph`. -/
def addBatchNode (G : DiGraph) (b : BatchRec) : DiGraph :=
  add_node G b.batch_id [("type", .s "batch"), ("origin", .s b.origin)]

/-- One iteration of the transactions loop of `build_supply_chain_graph`. -/
def addTxn (G : DiGraph) (r : TxnRec) : DiGraph :=
  add_edge (add_node (add_node G r.from_entity [("type", .s "entity")])
      r.to_entity [("type", .s "entity")])
    r.from_entity r.to_entity (txnEdgeAttrs r)

/-- One iteration of the logistics loop of `build_supply_chain_graph`. -/
def addLog (G : DiGraph) (r : LogRec) : DiGraph :=
  add_edge G r.from_location r.to_location (logEdgeAttrs r)

/-- `network_model.build_supply_chain_graph(transactions, batches, logistics)`:
batch nodes first, then stakeholder nodes and transaction edges, then
logistics edges. -/
def build_supply_chain_graph (transactions : List TxnRec) (batches : List BatchRec)
    (logistics : List LogRec) : DiGraph :=
  let G1 := batches.foldl addBatchNode DiGraph.empty
  let G2 := transactions.foldl addTxn G1
  logistics.foldl addLog G2

/-- Successors of `u` in `G`. -/
def succs (G : DiGraph) (u : String) : List String :=
  (G.edges.filter (fun e => e.1.1 == u)).map (fun e => e.1.2)

/-- Is there a directed path of length between 1 and `fuel` from `u` to `v`? -/
def canReach (G : DiGraph) : Nat → String → String → Bool
  | 0, _, _ => false
  | fuel + 1, u, v =>
      (succs G u).any (fun w => w == v || canReach G fuel w v)

/-- Does `G` contain a directed cycle through some node? -/
def hasCycle (G : DiGraph) : Bool :=
  (nodeKeys G).any (fun u => canReach G (nodeKeys G).length u u)

/-! Analytics: `network_model.py` lines 22-34 and the inline analytics of
`app.py` `analytics_center`.

Date columns are embedded as integer day numbers, so
`(pd.to_datetime(a) - pd.to_datetime(b)).dt.days` is `a - b : Int`, and
`.mean()` is the exact rational `sum / length`.
-/

/-- The date columns of a transactions row that the analytics read. -/
structure TxnRow where
  transaction_date : Int
  delivery_date : Int
  payment_date : Int
deriving DecidableEq, Repr

/-- A logistics row with the fields of the LogisticsMove of the spec; the
bottleneck analytics read only `start_date` and `end_date`. -/
structure LogisticsRow where
  batch_id : String
  from_location : String
  to_location : String
  start_date : Int
  end_date : Int
  cost : Int
deriving DecidableEq, Repr

/-- `series.mean()` on an integer series, as an exact rational. -/
def listMean (xs : List Int) : ℚ :=
  (xs.sum : ℚ) / (xs.length : ℚ)

/-- `network_model.compute_payment_lead_times`:
`(to_datetime(payment_date) - to_datetime(delivery_date)).dt.days`. -/
def compute_payment_lead_times (transactions : List TxnRow) : List Int :=
  transactions.map (fun r => r.payment_date - r.delivery_date)

/-- `network_model.compute_working_capital`:
mean of `(to_datetime(payment_date) - to_datetime(transaction_date)).dt.days`. -/
def compute_working_capital (transactions : List TxnRow) : ℚ :=
  listMean (transactions.map (fun r => r.payment_date - r.transaction_date))

/-- Transit duration in days of a logistics row:
`(to_datetime(end_date) - to_datetime(start_date)).dt.days`. -/
def transitDays (r : LogisticsRow) : Int :=
  r.end_date - r.start_date

/-- `network_model.detect_bottlenecks`: rows whose transit duration exceeds
`avg_time * 1.5`, where `avg_time` is the mean transit duration. -/
def detect_bottlenecks (logistics : List LogisticsRow) : List LogisticsRow :=
  let avg_time := listMean (logistics.map transitDays)
  logistics.filter (fun r => avg_time * (3 / 2 : ℚ) < (transitDays r : ℚ))

/-- `app.py` `analytics_center` line 297: the inline lead-time series
pd.to_datetime of payment_date minus pd.to_datetime of delivery_date, in days. -/
def app_lead_times (df : List TxnRow) : List Int :=
  df.map (fun r => r.payment_date - r.delivery_date)

/-- `app.py` `analytics_center` line 299: the reported average
`lead_times.mean()`. -/
def app_avg_payment_lead_time (df : List TxnRow) : ℚ :=
  listMean (app_lead_times df)

/-- `app.py` `analytics_center` line 298: the inline working-capital mean
the mean of pd.to_datetime of payment_date minus pd.to_datetime of transaction_date, in days. -/
def app_working_cap (df : List TxnRow) : ℚ :=
  listMean (df.map (fun r => r.payment_date - r.transaction_date))

/-- `app.py` `analytics_center` lines 304-306: the inline bottleneck filter
`df[total_time > avg * 1.5]`. -/
def app_bottlenecks (df : List LogisticsRow) : List LogisticsRow :=
  let total_time := df.map transitDays
  let avg := listMean total_time
  df.filter (fun r => avg * (3 / 2 : ℚ) < (transitDays r : ℚ))

/-! Global-name resolution of `network_model.py`.

`network_model.py` line 1 is `import networkx as nx` and nothing else is
imported, so the module globals bind `nx` and the four function names.  A
Python function raises `NameError` at its first reference to a global name
that is not bound.  The free global names referenced by each function body
are read off the source.
-/

/-- The global names bound in the `network_model` module: the sole import
`nx` plus the four function definitions. -/
def network_model_globals : List String :=
  ["nx", "build_supply_chain_graph", "compute_payment_lead_times",
   "compute_working_capital", "detect_bottlenecks"]

/-- The global names each `network_model` function body references, in
evaluation order, read off its source. -/
def freeGlobalRefs : String → List String
  | "build_supply_chain_graph" => ["nx"]
  | "compute_payment_lead_times" => ["pd"]
  | "compute_working_capital" => ["pd"]
  | "detect_bottlenecks" => ["pd"]
  | _ => []

/-- The first global name a function body fails to resolve, if any. -/
def firstUnresolvedGlobal (f : String) : Option String :=
  (freeGlobalRefs f).find? (fun n => !(network_model_globals.contains n))

/-- Running `compute_payment_lead_times`: a `NameError` on the first
unresolved global, the pure value otherwise. -/
def compute_payment_lead_times_run (transactions : List TxnRow) :
    Except String (List Int) :=
  match firstUnresolvedGlobal "compute_payment_lead_times" with
  | some n => .error ("NameError: " ++ n)
  | none => .ok (compute_payment_lead_times transactions)

/-- Running `compute_working_capital` under global-name resolution. -/
def compute_working_capital_run (transactions : List TxnRow) :
    Except String ℚ :=
  match firstUnresolvedGlobal "compute_working_capital" with
  | some n => .error ("NameError: " ++ n)
  | none => .ok (compute_working_capital transactions)

/-- Running `detect_bottlenecks` under global-name resolution. -/
def detect_bottlenecks_run (logistics : List LogisticsRow) :
    Except String (List LogisticsRow) :=
  match firstUnresolvedGlobal "detect_bottlenecks" with
  | some n => .error ("NameError: " ++ n)
  | none => .ok (detect_bottlenecks logistics)

/-- Running `build_supply_chain_graph` under global-name resolution. -/
def build_supply_chain_graph_run (transactions : List TxnRec)
    (batches : List BatchRec) (logistics : List LogRec) :
    Except String DiGraph :=
  match firstUnresolvedGlobal "build_supply_chain_graph" with
  | some n => .error ("NameError: " ++ n)
  | none => .ok (build_supply_chain_graph transactions batches logistics)

/-! SHA-256 and the credential utilities of `app.py`.

`hash_pw(pw)` is `hashlib.sha256(pw.encode()).hexdigest()`.  SHA-256
(FIPS 180-4) is implemented below over byte lists, 32-bit words as `Nat`
reduced `% 2 ^ 32`; `pw.encode()` is UTF-8 encoding.
-/

def mask32 : Nat := 4294967295

def add32 (a b : Nat) : Nat := (a + b) % 4294967296

def rotr32 (x n : Nat) : Nat := ((x >>> n) ||| (x <<< (32 - n))) % 4294967296

def shaCh (x y z : Nat) : Nat := (x &&& y) ^^^ ((x ^^^ mask32) &&& z)

def shaMaj (x y z : Nat) : Nat := (x &&& y) ^^^ (x &&& z) ^^^ (y &&& z)

def bigSigma0 (x : Nat) : Nat := rotr32 x 2 ^^^ rotr32 x 13 ^^^ rotr32 x 22

def bigSigma1 (x : Nat) : Nat := rotr32 x 6 ^^^ rotr32 x 11 ^^^ rotr32 x 25

def smallSigma0 (x : Nat) : Nat := rotr32 x 7 ^^^ rotr32 x 18 ^^^ (x >>> 3)

def smallSigma1 (x : Nat) : Nat := rotr32 x 17 ^^^ rotr32 x 19 ^^^ (x >>> 10)

/-- The 64 SHA-256 round constants. -/
def shaK : List Nat :=
  [1116352408, 1899447441, 3049323471, 3921009573, 961987163, 1508970993,
   2453635748, 2870763221, 3624381080, 310598401, 607225278, 1426881987,
   1925078388, 2162078206, 2614888103, 3248222580, 3835390401, 4022224774,
   264347078, 604807628, 770255983, 1249150122, 1555081692, 1996064986,
   2554220882, 2821834349, 2952996808, 3210313671, 3336571891, 3584528711,
   113926993, 338241895, 666307205, 773529912, 1294757372, 1396182291,
   1695183700, 1986661051, 2177026350, 2456956037, 2730485921, 2820302411,
   3259730800, 3345764771, 3516065817, 3600352804, 4094571909, 275423344,
   430227734, 506948616, 659060556, 883997877, 958139571, 1322822218,
   1537002063, 1747873779, 1955562222, 2024104815, 2227730452, 2361852424,
   2428436474, 2756734187, 3204031479, 3329325298]

/-- The SHA-256 initial hash value. -/
def shaH0 : List Nat :=
  [1779033703, 3144134277, 1013904242, 2773480762, 1359893119, 2600822924,
   528734635, 1541459225]

/-- Big-endian byte encoding of `x` on `k` bytes. -/
def toBytesBE : Nat → Nat → List Nat
  | 0, _ => []
  | k + 1, x => toBytesBE k (x / 256) ++ [x % 256]

/-- Group a byte list into big-endian 32-bit words. -/
def bytesToWords : List Nat → List Nat
  | b0 :: b1 :: b2 :: b3 :: rest =>
      (((b0 * 256 + b1) * 256 + b2) * 256 + b3) :: bytesToWords rest
  | _ => []

/-- Extend the 16-word message schedule by `n` further words. -/
def extendSchedule : List Nat → Nat → List Nat
  | w, 0 => w
  | w, n + 1 =>
      let i := w.length
      let nw := add32 (add32 (smallSigma1 (w.getD (i - 2) 0)) (w.getD (i - 7) 0))
        (add32 (smallSigma0 (w.getD (i - 15) 0)) (w.getD (i - 16) 0))
      extendSchedule (w ++ [nw]) n

/-- One SHA-256 round on the working state `[a,b,c,d,e,f,g,h]`, with `kw`
the round constant paired with the schedule word. -/
def shaRound (st : List Nat) (kw : Nat × Nat) : List Nat :=
  match st with
  | [a, b, c, d, e, f, g, h] =>
      let t1 := add32 h (add32 (bigSigma1 e) (add32 (shaCh e f g) (add32 kw.1 kw.2)))
      let t2 := add32 (bigSigma0 a) (shaMaj a b c)
      [add32 t1 t2, a, b, c, add32 d t1, e, f, g]
  | other => other

/-- Compress one 64-byte block into the hash state. -/
def shaCompress (h : List Nat) (block : List Nat) : List Nat :=
  let w := extendSchedule (bytesToWords block) 48
  let st := (shaK.zip w).foldl shaRound h
  (h.zip st).map (fun p => add32 p.1 p.2)

/-- Process `n` 64-byte blocks of `bytes`. -/
def shaBlocks : Nat → List Nat → List Nat → List Nat
  | 0, h, _ => h
  | n + 1, h, bytes => shaBlocks n (shaCompress h (bytes.take 64)) (bytes.drop 64)

/-- SHA-256 padding: `0x80`, zeros to 56 mod 64, then the bit length on
8 big-endian bytes. -/
def sha256pad (msg : List Nat) : List Nat :=
  msg ++ [128] ++ List.replicate ((119 - msg.length % 64) % 64) 0
    ++ toBytesBE 8 (msg.length * 8)

/-- SHA-256 digest of a byte list, as 32 bytes. -/
def sha256bytes (msg : List Nat) : List Nat :=
  let padded := sha256pad msg
  (shaBlocks (padded.length / 64) shaH0 padded).flatMap (toBytesBE 4)

def hexDigitChar (n : Nat) : Char :=
  Char.ofNat (if n < 10 then 48 + n else 87 + n)

def byteToHex (b : Nat) : List Char :=
  [hexDigitChar (b / 16), hexDigitChar (b % 16)]

/-- `.hexdigest()`: lowercase hex of the digest bytes. -/
def bytesToHex (bs : List Nat) : String :=
  String.mk (bs.flatMap byteToHex)

/-- UTF-8 encoding of one character (`str.encode()` byte semantics). -/
def utf8EncodeChar (c : Char) : List Nat :=
  let n := c.toNat
  if n < 128 then [n]
  else if n < 2048 then [192 + n / 64, 128 + n % 64]
  else if n < 65536 then [224 + n / 4096, 128 + (n / 64) % 64, 128 + n % 64]
  else [240 + n / 262144, 128 + (n / 4096) % 64, 128 + (n / 64) % 64, 128 + n % 64]

/-- `pw.encode()`: UTF-8 bytes of a string. -/
def strToBytes (s : String) : List Nat :=
  s.data.flatMap utf8EncodeChar

/-- `app.hash_pw`: `hashlib.sha256(pw.encode()).hexdigest()`. -/
def hash_pw (pw : String) : String :=
  bytesToHex (sha256bytes (strToBytes pw))

/-- A row of `users.csv`. -/
structure UserRow where
  username : String
  password : String
  role : String
deriving DecidableEq, Repr

/-- The state of `users.csv`: `none` when the file does not exist. -/
abbrev UsersFile := Option (List UserRow)

/-- `app.load_users`: empty dataframe when `users.csv` is missing, its rows
otherwise. -/
def load_users (fs : UsersFile) : List UserRow :=
  match fs with
  | none => []
  | some rows => rows

/-- `app.save_user`: refuse when the username is already present (no file
write), otherwise append one row with the hashed password and write the
file.  Returns the success flag and the resulting file state. -/
def save_user (fs : UsersFile) (username password role : String) :
    Bool × UsersFile :=
  let users := load_users fs
  if username ∈ users.map (fun r => r.username) then
    (false, fs)
  else
    (true, some (users ++ [⟨username, hash_pw password, role⟩]))

/-- The row filter of `app.validate_login`:
the rows whose username column equals the supplied username and whose password column equals hash_pw(password). -/
def loginMatches (username password : String) (r : UserRow) : Bool :=
  r.username == username && r.password == hash_pw password

/-- `app.validate_login`: the role of the first row matching both the
username and the hashed password (match.iloc at index 0), else None. -/
def validate_login (fs : UsersFile) (username password : String) :
    Option String :=
  let users := load_users fs
  match users.filter (loginMatches username password) with
  | [] => none
  | r :: _ => some r.role

/-- A login attempt as a state transition on `users.csv`: the body of
`validate_login` only reads the store (`load_users`) and never writes, so
the resulting file state is the input one. -/
def validate_login_st (fs : UsersFile) (username password : String) :
    Option String × UsersFile :=
  (validate_login fs username password, fs)

/-! CSV loading pipeline: `app.py` lines 319-363.

`load_demo_csv` is the literal demo dataframe.  The module-level loading
code is: `df = None`; if a CSV file was uploaded, `try: df = pd.read_csv`
with an error message on exception; if no file was uploaded,
`df = load_demo_csv()`.  CSV parsing itself is the library call
`pd.read_csv`, passed in as a function returning `none` on a parse failure.
-/

/-- A row of the demo dataframe of `app.load_demo_csv`. -/
structure DemoRow where
  order_id : Int
  status : String
  created_at : String
  payment_due_date : String
  amount : Int
  from_entity : String
  to_entity : String
  batch_id : String
  payment_date : String
  delivery_date : String
  transaction_date : String
  start_date : String
  end_date : String
  shipment_id : Int
  delivered : Bool
  delivery_eta : String
  paid : Bool
deriving DecidableEq, Repr

/-- `app.load_demo_csv`: the three hard-coded demo rows. -/
def load_demo_csv : List DemoRow :=
  [⟨1001, "Paid", "2024-07-01", "2024-07-10", 5000, "Blue Aqua", "FreshSeafood",
    "B001", "2024-07-10", "2024-07-09", "2024-06-30", "2024-07-08", "2024-07-09",
    21001, true, "2024-07-09", true⟩,
   ⟨1002, "Unpaid", "2024-07-02", "2024-07-13", 3000, "Green Oceans", "AquaRetail",
    "B002", "2024-07-13", "2024-07-12", "2024-07-01", "2024-07-10", "2024-07-12",
    21002, false, "2024-07-12", false⟩,
   ⟨1003, "Paid", "2024-07-03", "2024-07-16", 4500, "FishPro", "FreshSeafood",
    "B003", "2024-07-16", "2024-07-15", "2024-07-02", "2024-07-14", "2024-07-15",
    21003, true, "2024-07-15", true⟩]

/-- Outcome of the module-level CSV loading code of `app.py`. -/
structure LoadResult where
  df : Option (List DemoRow)
  errorShown : Bool
  demoUsed : Bool
deriving DecidableEq, Repr

/-- `app.py` lines 355-363: `df = None`; on an uploaded file, parse it and
show an error (leaving `df = None`) when parsing fails; when no file was
uploaded, fall back to the demo dataframe. -/
def load_pipeline (parse : String → Option (List DemoRow))
    (csv_file : Option String) : LoadResult :=
  match csv_file with
  | some f =>
      match parse f with
      | some d => { df := some d, errorShown := false, demoUsed := false }
      | none => { df := none, errorShown := true, demoUsed := false }
  | none => { df := some load_demo_csv, errorShown := false, demoUsed := true }

/-! Helper lemmas on the graph embedding. -/

theorem nodeKeys_add_node (G : DiGraph) (n : String) (a : AttrDict) :
    nodeKeys (add_node G n a) =
      if n ∈ nodeKeys G then nodeKeys G else nodeKeys G ++ [n] := by
  unfold add_node
  split_ifs with h
  · simp only [nodeKeys, List.map_map]
    refine List.map_congr_left ?_
    intro p _
    by_cases hp : p.1 = n <;> simp [hp]
  · simp [nodeKeys]

theorem edges_add_node (G : DiGraph) (n : String) (a : AttrDict) :
    (add_node G n a).edges = G.edges := by
  unfold add_node
  split_ifs <;> rfl

theorem mem_nodeKeys_add_node (G : DiGraph) (n x : String) (a : AttrDict) :
    x ∈ nodeKeys (add_node G n a) ↔ x ∈ nodeKeys G ∨ x = n := by
  rw [nodeKeys_add_node]
  split_ifs with h
  · constructor
    · exact fun hx => Or.inl hx
    · rintro (hx | rfl)
      · exact hx
      · exact h
  · simp

theorem nodup_nodeKeys_add_node (G : DiGraph) (n : String) (a : AttrDict)
    (h : (nodeKeys G).Nodup) : (nodeKeys (add_node G n a)).Nodup := by
  rw [nodeKeys_add_node]
  split_ifs with hm
  · exact h
  · simp [List.nodup_append, h, hm]

theorem nodeKeys_ensureNode (G : DiGraph) (n : String) :
    nodeKeys (ensureNode G n) =
      if n ∈ nodeKeys G then nodeKeys G else nodeKeys G ++ [n] := by
  unfold ensureNode
  split_ifs <;> simp [nodeKeys]

theorem edges_ensureNode (G : DiGraph) (n : String) :
    (ensureNode G n).edges = G.edges := by
  unfold ensureNode
  split_ifs <;> rfl

theorem edgeKeys_ensureNode (G : DiGraph) (n : String) :
    edgeKeys (ensureNode G n) = edgeKeys G := by
  simp [edgeKeys, edges_ensureNode]

theorem mem_nodeKeys_ensureNode (G : DiGraph) (n x : String) :
    x ∈ nodeKeys (ensureNode G n) ↔ x ∈ nodeKeys G ∨ x = n := by
  rw [nodeKeys_ensureNode]
  split_ifs with h
  · constructor
    · exact fun hx => Or.inl hx
    · rintro (hx | rfl)
      · exact hx
      · exact h
  · simp

theorem nodup_nodeKeys_ensureNode (G : DiGraph) (n : String)
    (h : (nodeKeys G).Nodup) : (nodeKeys (ensureNode G n)).Nodup := by
  rw [nodeKeys_ensureNode]
  split_ifs with hm
  · exact h
  · simp [List.nodup_append, h, hm]

theorem nodes_add_edge (G : DiGraph) (u v : String) (a : AttrDict) :
    (add_edge G u v a).nodes = (ensureNode (ensureNode G u) v).nodes := by
  simp only [add_edge]
  split_ifs <;> rfl

theorem nodeKeys_add_edge (G : DiGraph) (u v : String) (a : AttrDict) :
    nodeKeys (add_edge G u v a) = nodeKeys (ensureNode (ensureNode G u) v) := by
  simp only [nodeKeys, nodes_add_edge]

theorem mem_nodeKeys_add_edge (G : DiGraph) (u v x : String) (a : AttrDict) :
    x ∈ nodeKeys (add_edge G u v a) ↔ x ∈ nodeKeys G ∨ x = u ∨ x = v := by
  rw [nodeKeys_add_edge]
  simp [mem_nodeKeys_ensureNode, or_assoc]

theorem nodup_nodeKeys_add_edge (G : DiGraph) (u v : String) (a : AttrDict)
    (h : (nodeKeys G).Nodup) : (nodeKeys (add_edge G u v a)).Nodup := by
  rw [nodeKeys_add_edge]
  exact nodup_nodeKeys_ensureNode _ _ (nodup_nodeKeys_ensureNode _ _ h)

theorem edgeKeys_add_edge (G : DiGraph) (u v : String) (a : AttrDict) :
    edgeKeys (add_edge G u v a) =
      if (u, v) ∈ edgeKeys G then edgeKeys G else edgeKeys G ++ [(u, v)] := by
  have he : edgeKeys (ensureNode (ensureNode G u) v) = edgeKeys G := by
    rw [edgeKeys_ensureNode, edgeKeys_ensureNode]
  simp only [add_edge, he]
  split_ifs with h
  · simp only [edgeKeys, List.map_map, edges_ensureNode]
    refine List.map_congr_left ?_
    intro p _
    by_cases hp : p.1 = (u, v) <;> simp [hp]
  · simp [edgeKeys, edges_ensureNode]

theorem edges_add_edge_new (G : DiGraph) (u v : String) (a : AttrDict)
    (h : (u, v) ∉ edgeKeys G) :
    (add_edge G u v a).edges = G.edges ++ [((u, v), updAttrs [] a)] := by
  have he : edgeKeys (ensureNode (ensureNode G u) v) = edgeKeys G := by
    rw [edgeKeys_ensureNode, edgeKeys_ensureNode]
  simp only [add_edge, he]
  rw [if_neg h]
  simp [edges_ensureNode]

theorem mem_edgeKeys_add_edge (G : DiGraph) (u v : String)
    (e : String × String) (a : AttrDict) :
    e ∈ edgeKeys (add_edge G u v a) ↔ e ∈ edgeKeys G ∨ e = (u, v) := by
  rw [edgeKeys_add_edge]
  split_ifs with h
  · constructor
    · exact fun hx => Or.inl hx
    · rintro (hx | rfl)
      · exact hx
      · exact h
  · simp

theorem nodup_edgeKeys_add_edge (G : DiGraph) (u v : String) (a : AttrDict)
    (h : (edgeKeys G).Nodup) : (edgeKeys (add_edge G u v a)).Nodup := by
  rw [edgeKeys_add_edge]
  split_ifs with hm
  · exact h
  · simp [List.nodup_append, h, hm]

theorem edgeKeys_add_node (G : DiGraph) (n : String) (a : AttrDict) :
    edgeKeys (add_node G n a) = edgeKeys G := by
  simp [edgeKeys, edges_add_node]

theorem updAttrs_txn (r : TxnRec) : updAttrs [] (txnEdgeAttrs r) = txnEdgeAttrs r := rfl

theorem updAttrs_log (r : LogRec) : updAttrs [] (logEdgeAttrs r) = logEdgeAttrs r := rfl

theorem mem_nodeKeys_addBatchNode (G : DiGraph) (b : BatchRec) (x : String) :
    x ∈ nodeKeys (addBatchNode G b) ↔ x ∈ nodeKeys G ∨ x = b.batch_id :=
  mem_nodeKeys_add_node G b.batch_id x _

theorem edges_addBatchNode (G : DiGraph) (b : BatchRec) :
    (addBatchNode G b).edges = G.edges :=
  edges_add_node G b.batch_id _

theorem mem_nodeKeys_addTxn (G : DiGraph) (r : TxnRec) (x : String) :
    x ∈ nodeKeys (addTxn G r) ↔
      x ∈ nodeKeys G ∨ x = r.from_entity ∨ x = r.to_entity := by
  unfold addTxn
  rw [mem_nodeKeys_add_edge, mem_nodeKeys_add_node, mem_nodeKeys_add_node]
  tauto

theorem mem_edgeKeys_addTxn (G : DiGraph) (r : TxnRec) (e : String × String) :
    e ∈ edgeKeys (addTxn G r) ↔
      e ∈ edgeKeys G ∨ e = (r.from_entity, r.to_entity) := by
  unfold addTxn
  rw [mem_edgeKeys_add_edge, edgeKeys_add_node, edgeKeys_add_node]

theorem edges_addTxn (G : DiGraph) (r : TxnRec)
    (h : (r.from_entity, r.to_entity) ∉ edgeKeys G) :
    (addTxn G r).edges =
      G.edges ++ [((r.from_entity, r.to_entity), txnEdgeAttrs r)] := by
  unfold addTxn
  have h2 : (r.from_entity, r.to_entity) ∉
      edgeKeys (add_node (add_node G r.from_entity [("type", .s "entity")])
        r.to_entity [("type", .s "entity")]) := by
    rwa [edgeKeys_add_node, edgeKeys_add_node]
  rw [edges_add_edge_new _ _ _ _ h2, edges_add_node, edges_add_node, updAttrs_txn]

theorem mem_nodeKeys_addLog (G : DiGraph) (r : LogRec) (x : String) :
    x ∈ nodeKeys (addLog G r) ↔
      x ∈ nodeKeys G ∨ x = r.from_location ∨ x = r.to_location :=
  mem_nodeKeys_add_edge G r.from_location r.to_location x _

theorem mem_edgeKeys_addLog (G : DiGraph) (r : LogRec) (e : String × String) :
    e ∈ edgeKeys (addLog G r) ↔
      e ∈ edgeKeys G ∨ e = (r.from_location, r.to_location) :=
  mem_edgeKeys_add_edge G r.from_location r.to_location e _

theorem edges_addLog (G : DiGraph) (r : LogRec)
    (h : (r.from_location, r.to_location) ∉ edgeKeys G) :
    (addLog G r).edges =
      G.edges ++ [((r.from_location, r.to_location), logEdgeAttrs r)] := by
  unfold addLog
  rw [edges_add_edge_new _ _ _ _ h, updAttrs_log]

theorem mem_nodeKeys_foldl_batch (bs : List BatchRec) :
    ∀ (G : DiGraph) (x : String),
      x ∈ nodeKeys (bs.foldl addBatchNode G) ↔
        x ∈ nodeKeys G ∨ ∃ rb ∈ bs, x = rb.batch_id := by
  induction bs with
  | nil => simp
  | cons rb bs ih =>
      intro G x
      simp only [List.foldl_cons, ih, mem_nodeKeys_addBatchNode, List.mem_cons]
      constructor
      · rintro ((h | h) | ⟨r2, h2, h3⟩)
        · exact Or.inl h
        · exact Or.inr ⟨rb, Or.inl rfl, h⟩
        · exact Or.inr ⟨r2, Or.inr h2, h3⟩
      · rintro (h | ⟨r2, h2 | h2, h3⟩)
        · exact Or.inl (Or.inl h)
        · exact Or.inl (Or.inr (h2 ▸ h3))
        · exact Or.inr ⟨r2, h2, h3⟩

theorem edges_foldl_batch (bs : List BatchRec) :
    ∀ G : DiGraph, (bs.foldl addBatchNode G).edges = G.edges := by
  induction bs with
  | nil => intro G; rfl
  | cons rb bs ih =>
      intro G
      simp only [List.foldl_cons, ih, edges_addBatchNode]

theorem mem_nodeKeys_foldl_txn (ts : List TxnRec) :
    ∀ (G : DiGraph) (x : String),
      x ∈ nodeKeys (ts.foldl addTxn G) ↔
        x ∈ nodeKeys G ∨ ∃ r ∈ ts, x = r.from_entity ∨ x = r.to_entity := by
  induction ts with
  | nil => simp
  | cons r ts ih =>
      intro G x
      simp only [List.foldl_cons, ih, mem_nodeKeys_addTxn, List.mem_cons]
      constructor
      · rintro ((h | h) | ⟨r2, h2, h3⟩)
        · exact Or.inl h
        · exact Or.inr ⟨r, Or.inl rfl, h⟩
        · exact Or.inr ⟨r2, Or.inr h2, h3⟩
      · rintro (h | ⟨r2, h2 | h2, h3⟩)
        · exact Or.inl (Or.inl h)
        · exact Or.inl (Or.inr (h2 ▸ h3))
        · exact Or.inr ⟨r2, h2, h3⟩

theorem mem_edgeKeys_foldl_txn (ts : List TxnRec) :
    ∀ (G : DiGraph) (e : String × String),
      e ∈ edgeKeys (ts.foldl addTxn G) ↔
        e ∈ edgeKeys G ∨ ∃ r ∈ ts, e = (r.from_entity, r.to_entity) := by
  induction ts with
  | nil => simp
  | cons r ts ih =>
      intro G e
      simp only [List.foldl_cons, ih, mem_edgeKeys_addTxn, List.mem_cons]
      constructor
      · rintro ((h | h) | ⟨r2, h2, h3⟩)
        · exact Or.inl h
        · exact Or.inr ⟨r, Or.inl rfl, h⟩
        · exact Or.inr ⟨r2, Or.inr h2, h3⟩
      · rintro (h | ⟨r2, h2 | h2, h3⟩)
        · exact Or.inl (Or.inl h)
        · exact Or.inl (Or.inr (h2 ▸ h3))
        · exact Or.inr ⟨r2, h2, h3⟩

theorem mem_nodeKeys_foldl_log (ls : List LogRec) :
    ∀ (G : DiGraph) (x : String),
      x ∈ nodeKeys (ls.foldl addLog G) ↔
        x ∈ nodeKeys G ∨ ∃ r ∈ ls, x = r.from_location ∨ x = r.to_location := by
  induction ls with
  | nil => simp
  | cons r ls ih =>
      intro G x
      simp only [List.foldl_cons, ih, mem_nodeKeys_addLog, List.mem_cons]
      constructor
      · rintro ((h | h) | ⟨r2, h2, h3⟩)
        · exact Or.inl h
        · exact Or.inr ⟨r, Or.inl rfl, h⟩
        · exact Or.inr ⟨r2, Or.inr h2, h3⟩
      · rintro (h | ⟨r2, h2 | h2, h3⟩)
        · exact Or.inl (Or.inl h)
        · exact Or.inl (Or.inr (h2 ▸ h3))
        · exact Or.inr ⟨r2, h2, h3⟩

theorem mem_edgeKeys_foldl_log (ls : List LogRec) :
    ∀ (G : DiGraph) (e : String × String),
      e ∈ edgeKeys (ls.foldl addLog G) ↔
        e ∈ edgeKeys G ∨ ∃ r ∈ ls, e = (r.from_location, r.to_location) := by
  induction ls with
  | nil => simp
  | cons r ls ih =>
      intro G e
      simp only [List.foldl_cons, ih, mem_edgeKeys_addLog, List.mem_cons]
      constructor
      · rintro ((h | h) | ⟨r2, h2, h3⟩)
        · exact Or.inl h
        · exact Or.inr ⟨r, Or.inl rfl, h⟩
        · exact Or.inr ⟨r2, Or.inr h2, h3⟩
      · rintro (h | ⟨r2, h2 | h2, h3⟩)
        · exact Or.inl (Or.inl h)
        · exact Or.inl (Or.inr (h2 ▸ h3))
        · exact Or.inr ⟨r2, h2, h3⟩

theorem nodup_nodeKeys_addTxn (G : DiGraph) (r : TxnRec)
    (h : (nodeKeys G).Nodup) : (nodeKeys (addTxn G r)).Nodup := by
  unfold addTxn
  exact nodup_nodeKeys_add_edge _ _ _ _
    (nodup_nodeKeys_add_node _ _ _ (nodup_nodeKeys_add_node _ _ _ h))

theorem nodup_edgeKeys_addTxn (G : DiGraph) (r : TxnRec)
    (h : (edgeKeys G).Nodup) : (edgeKeys (addTxn G r)).Nodup := by
  unfold addTxn
  refine nodup_edgeKeys_add_edge _ _ _ _ ?_
  rwa [edgeKeys_add_node, edgeKeys_add_node]

theorem nodup_foldl_batch_nodeKeys (bs : List BatchRec) :
    ∀ G : DiGraph, (nodeKeys G).Nodup →
      (nodeKeys (bs.foldl addBatchNode G)).Nodup := by
  induction bs with
  | nil => exact fun G h => h
  | cons rb bs ih =>
      intro G h
      exact ih _ (nodup_nodeKeys_add_node _ _ _ h)

theorem nodup_foldl_txn_nodeKeys (ts : List TxnRec) :
    ∀ G : DiGraph, (nodeKeys G).Nodup →
      (nodeKeys (ts.foldl addTxn G)).Nodup := by
  induction ts with
  | nil => exact fun G h => h
  | cons r ts ih =>
      intro G h
      rw [List.foldl_cons]
      exact ih (addTxn G r) (nodup_nodeKeys_addTxn G r h)

theorem nodup_foldl_log_nodeKeys (ls : List LogRec) :
    ∀ G : DiGraph, (nodeKeys G).Nodup →
      (nodeKeys (ls.foldl addLog G)).Nodup := by
  induction ls with
  | nil => exact fun G h => h
  | cons r ls ih =>
      intro G h
      exact ih _ (nodup_nodeKeys_add_edge _ _ _ _ h)

theorem nodup_foldl_txn_edgeKeys (ts : List TxnRec) :
    ∀ G : DiGraph, (edgeKeys G).Nodup →
      (edgeKeys (ts.foldl addTxn G)).Nodup := by
  induction ts with
  | nil => exact fun G h => h
  | cons r ts ih =>
      intro G h
      rw [List.foldl_cons]
      exact ih (addTxn G r) (nodup_edgeKeys_addTxn G r h)

theorem nodup_foldl_log_edgeKeys (ls : List LogRec) :
    ∀ G : DiGraph, (edgeKeys G).Nodup →
      (edgeKeys (ls.foldl addLog G)).Nodup := by
  induction ls with
  | nil => exact fun G h => h
  | cons r ls ih =>
      intro G h
      exact ih _ (nodup_edgeKeys_add_edge _ _ _ _ h)

theorem edges_foldl_txn (ts : List TxnRec) :
    ∀ G : DiGraph,
      (ts.map (fun r => (r.from_entity, r.to_entity))).Nodup →
      (∀ r ∈ ts, (r.from_entity, r.to_entity) ∉ edgeKeys G) →
      (ts.foldl addTxn G).edges =
        G.edges ++ ts.map (fun r => ((r.from_entity, r.to_entity), txnEdgeAttrs r)) := by
  induction ts with
  | nil => simp
  | cons r ts ih =>
      intro G hnd hnew
      rw [List.map_cons] at hnd
      have hG : (r.from_entity, r.to_entity) ∉ edgeKeys G :=
        hnew r (List.mem_cons_self r ts)
      have hkeys : edgeKeys (addTxn G r) =
          edgeKeys G ++ [(r.from_entity, r.to_entity)] := by
        simp [edgeKeys, edges_addTxn G r hG]
      have hnew2 : ∀ r2 ∈ ts, (r2.from_entity, r2.to_entity) ∉ edgeKeys (addTxn G r) := by
        intro r2 hr2
        rw [hkeys]
        simp only [List.mem_append, List.mem_singleton]
        refine not_or.mpr ⟨hnew r2 (List.mem_cons_of_mem _ hr2), ?_⟩
        intro hEq
        exact (List.nodup_cons.mp hnd).1
          (hEq ▸ List.mem_map_of_mem (fun r => (r.from_entity, r.to_entity)) hr2)
      simp only [List.foldl_cons, List.map_cons]
      rw [ih (addTxn G r) (List.nodup_cons.mp hnd).2 hnew2, edges_addTxn G r hG]
      simp

theorem edges_foldl_log (ls : List LogRec) :
    ∀ G : DiGraph,
      (ls.map (fun r => (r.from_location, r.to_location))).Nodup →
      (∀ r ∈ ls, (r.from_location, r.to_location) ∉ edgeKeys G) →
      (ls.foldl addLog G).edges =
        G.edges ++ ls.map (fun r => ((r.from_location, r.to_location), logEdgeAttrs r)) := by
  induction ls with
  | nil => simp
  | cons r ls ih =>
      intro G hnd hnew
      rw [List.map_cons] at hnd
      have hG : (r.from_location, r.to_location) ∉ edgeKeys G :=
        hnew r (List.mem_cons_self r ls)
      have hkeys : edgeKeys (addLog G r) =
          edgeKeys G ++ [(r.from_location, r.to_location)] := by
        simp [edgeKeys, edges_addLog G r hG]
      have hnew2 : ∀ r2 ∈ ls,
          (r2.from_location, r2.to_location) ∉ edgeKeys (addLog G r) := by
        intro r2 hr2
        rw [hkeys]
        simp only [List.mem_append, List.mem_singleton]
        refine not_or.mpr ⟨hnew r2 (List.mem_cons_of_mem _ hr2), ?_⟩
        intro hEq
        exact (List.nodup_cons.mp hnd).1
          (hEq ▸ List.mem_map_of_mem (fun r => (r.from_location, r.to_location)) hr2)
      simp only [List.foldl_cons, List.map_cons]
      rw [ih (addLog G r) (List.nodup_cons.mp hnd).2 hnew2, edges_addLog G r hG]
      simp

theorem mem_nodeKeys_build (t : List TxnRec) (b : List BatchRec) (l : List LogRec)
    (x : String) :
    x ∈ nodeKeys (build_supply_chain_graph t b l) ↔
      (∃ rb ∈ b, x = rb.batch_id) ∨ (∃ r ∈ t, x = r.from_entity ∨ x = r.to_entity) ∨
        ∃ r ∈ l, x = r.from_location ∨ x = r.to_location := by
  unfold build_supply_chain_graph
  rw [mem_nodeKeys_foldl_log, mem_nodeKeys_foldl_txn, mem_nodeKeys_foldl_batch]
  simp [nodeKeys, DiGraph.empty, or_assoc]

theorem mem_edgeKeys_build (t : List TxnRec) (b : List BatchRec) (l : List LogRec)
    (e : String × String) :
    e ∈ edgeKeys (build_supply_chain_graph t b l) ↔
      (∃ r ∈ t, e = (r.from_entity, r.to_entity)) ∨
        ∃ r ∈ l, e = (r.from_location, r.to_location) := by
  unfold build_supply_chain_graph
  rw [mem_edgeKeys_foldl_log, mem_edgeKeys_foldl_txn]
  have hb : edgeKeys (b.foldl addBatchNode DiGraph.empty) = [] := by
    simp [edgeKeys, edges_foldl_batch, DiGraph.empty]
  simp [hb, or_assoc]

theorem edges_build_of_nodup (t : List TxnRec) (b : List BatchRec) (l : List LogRec)
    (h : (t.map (fun r => (r.from_entity, r.to_entity)) ++
      l.map (fun r => (r.from_location, r.to_location))).Nodup) :
    (build_supply_chain_graph t b l).edges =
      t.map (fun r => ((r.from_entity, r.to_entity), txnEdgeAttrs r)) ++
        l.map (fun r => ((r.from_location, r.to_location), logEdgeAttrs r)) := by
  unfold build_supply_chain_graph
  obtain ⟨ht, hl, hdisj⟩ := List.nodup_append.mp h
  have hbEdges : (b.foldl addBatchNode DiGraph.empty).edges = [] := by
    simp [edges_foldl_batch, DiGraph.empty]
  have hbKeys : edgeKeys (b.foldl addBatchNode DiGraph.empty) = [] := by
    simp [edgeKeys, hbEdges]
  have ht2 : (t.foldl addTxn (b.foldl addBatchNode DiGraph.empty)).edges =
      (b.foldl addBatchNode DiGraph.empty).edges ++
        t.map (fun r => ((r.from_entity, r.to_entity), txnEdgeAttrs r)) := by
    refine edges_foldl_txn t _ ht ?_
    intro r _
    simp [hbKeys]
  have htKeys : edgeKeys (t.foldl addTxn (b.foldl addBatchNode DiGraph.empty)) =
      t.map (fun r => (r.from_entity, r.to_entity)) := by
    simp [edgeKeys, ht2, hbEdges]
  rw [edges_foldl_log l _ hl ?hnew, ht2, hbEdges]
  · simp
  case hnew =>
    intro r hr
    rw [htKeys]
    intro hmem
    exact hdisj hmem (List.mem_map_of_mem (fun r => (r.from_location, r.to_location)) hr)

/-! Concrete inputs used by counterexamples and witnesses. -/

def txnA : TxnRec := ⟨"FarmA", "ProcessorB", "B001", "2024-01-01", "Net30"⟩

def txnA2 : TxnRec := ⟨"FarmA", "ProcessorB", "B002", "2024-01-05", "Net15"⟩

def logA : LogRec := ⟨"PortX", "PortY", "2024-01-03", 500⟩

def batchA : BatchRec := ⟨"B003", "HatcheryZ"⟩

/-- Two batch rows sharing one `batch_id`, exercising duplicate ids. -/
def dupBatches : List BatchRec := [⟨"B001", "OriginA"⟩, ⟨"B001", "OriginB"⟩]

/-- Two transactions whose edges form the cycle `A → B → A`. -/
def cycTxns : List TxnRec :=
  [⟨"A", "B", "B001", "2024-01-01", "Net30"⟩, ⟨"B", "A", "B001", "2024-01-02", "Net30"⟩]

/-! Claims. -/

/-- Claim C1, counterexample.  The claim says every edge of
`build_supply_chain_graph` carries batch, date and cost attributes of its
record, one edge per record.  On a single-transaction input, the one edge
carries no `cost` attribute; on a single logistics move, the edge carries no
`batch_id` attribute; and two transactions sharing the ordered entity pair
produce one edge, not two. -/
theorem build_graph_edge_attrs_counterexample :
    ((build_supply_chain_graph [txnA] [] []).edges.all
        (fun e => (lookupAttr "cost" e.2).isSome) = false)
    ∧ ((build_supply_chain_graph [] [] [logA]).edges.all
        (fun e => (lookupAttr "batch_id" e.2).isSome) = false)
    ∧ (build_supply_chain_graph [txnA, txnA2] [] []).edges.length = 1 := by
  refine ⟨?_, ?_, ?_⟩ <;> rfl

/-- Claim C1, amended.  `build_supply_chain_graph` returns a graph whose node
set is exactly the union of the batch identifiers, the transaction entities
and the logistics locations; its edge keys are exactly the ordered pairs of
transactions and of logistics moves; and when all those pairs are distinct,
each transaction contributes one edge carrying `batch_id`, `date`
(the transaction date) and `payment_term`, and each logistics move one edge
carrying `date` (the move date) and `cost` (the logistics cost). -/
theorem build_graph_amended_spec (t : List TxnRec) (b : List BatchRec)
    (l : List LogRec) :
    (∀ x, x ∈ nodeKeys (build_supply_chain_graph t b l) ↔
      (∃ rb ∈ b, x = rb.batch_id) ∨ (∃ r ∈ t, x = r.from_entity ∨ x = r.to_entity) ∨
        ∃ r ∈ l, x = r.from_location ∨ x = r.to_location)
    ∧ (∀ e, e ∈ edgeKeys (build_supply_chain_graph t b l) ↔
        (∃ r ∈ t, e = (r.from_entity, r.to_entity)) ∨
          ∃ r ∈ l, e = (r.from_location, r.to_location))
    ∧ ((t.map (fun r => (r.from_entity, r.to_entity)) ++
          l.map (fun r => (r.from_location, r.to_location))).Nodup →
        (build_supply_chain_graph t b l).edges =
          t.map (fun r => ((r.from_entity, r.to_entity), txnEdgeAttrs r)) ++
            l.map (fun r => ((r.from_location, r.to_location), logEdgeAttrs r))) :=
  ⟨fun x => mem_nodeKeys_build t b l x,
   fun e => mem_edgeKeys_build t b l e,
   edges_build_of_nodup t b l⟩

/-- Claim C1, witness: the amended edge description evaluated on a concrete
input with distinct edge pairs. -/
theorem build_graph_amended_spec_witness :
    (([txnA].map (fun r => (r.from_entity, r.to_entity)) ++
        [logA].map (fun r => (r.from_location, r.to_location))).Nodup)
    ∧ (build_supply_chain_graph [txnA] [batchA] [logA]).edges =
        [txnA].map (fun r => ((r.from_entity, r.to_entity), txnEdgeAttrs r)) ++
          [logA].map (fun r => ((r.from_location, r.to_location), logEdgeAttrs r)) :=
  ⟨by decide, (build_graph_amended_spec [txnA] [batchA] [logA]).2.2 (by decide)⟩

/-- Claim C6.  `build_supply_chain_graph` enforces no uniqueness or acyclicity
precondition: node and edge keys of the result are always duplicate-free
(re-adding never duplicates); re-adding an existing node or edge leaves the
key sets unchanged and only overwrites attributes (concretely, the second of
two rows sharing `batch_id` `B001` overwrites the `origin` attribute); and
the returned graph may contain a directed cycle. -/
theorem build_graph_no_preconditions :
    (∀ (t : List TxnRec) (b : List BatchRec) (l : List LogRec),
      (nodeKeys (build_supply_chain_graph t b l)).Nodup ∧
        (edgeKeys (build_supply_chain_graph t b l)).Nodup)
    ∧ (∀ (G : DiGraph) (n : String) (a : AttrDict), n ∈ nodeKeys G →
        nodeKeys (add_node G n a) = nodeKeys G)
    ∧ (∀ (G : DiGraph) (u v : String) (a : AttrDict), (u, v) ∈ edgeKeys G →
        edgeKeys (add_edge G u v a) = edgeKeys G)
    ∧ (build_supply_chain_graph [] dupBatches []).nodes =
        [("B001", [("type", .s "batch"), ("origin", .s "OriginB")])]
    ∧ hasCycle (build_supply_chain_graph cycTxns dupBatches []) = true := by
  refine ⟨?_, ?_, ?_, ?_, ?_⟩
  · intro t b l
    constructor
    · unfold build_supply_chain_graph
      exact nodup_foldl_log_nodeKeys l _ (nodup_foldl_txn_nodeKeys t _
        (nodup_foldl_batch_nodeKeys b DiGraph.empty (by simp [nodeKeys, DiGraph.empty])))
    · unfold build_supply_chain_graph
      refine nodup_foldl_log_edgeKeys l _ (nodup_foldl_txn_edgeKeys t _ ?_)
      simp [edgeKeys, edges_foldl_batch, DiGraph.empty]
  · intro G n a h
    rw [nodeKeys_add_node, if_pos h]
  · intro G u v a h
    rw [edgeKeys_add_edge, if_pos h]
  · rfl
  · rfl

/-- Claim C6, witness: re-adding the existing node `A` and the existing edge
`(A, B)` of a concrete cyclic graph leaves its node and edge key sets
unchanged. -/
theorem build_graph_no_preconditions_witness :
    nodeKeys (add_node (build_supply_chain_graph cycTxns dupBatches []) "A"
        [("type", AttrVal.s "entity")]) =
      nodeKeys (build_supply_chain_graph cycTxns dupBatches [])
    ∧ edgeKeys (add_edge (build_supply_chain_graph cycTxns dupBatches []) "A" "B" []) =
        edgeKeys (build_supply_chain_graph cycTxns dupBatches []) :=
  ⟨build_graph_no_preconditions.2.1 (build_supply_chain_graph cycTxns dupBatches [])
      "A" [("type", AttrVal.s "entity")] (by decide),
   build_graph_no_preconditions.2.2.1 (build_supply_chain_graph cycTxns dupBatches [])
      "A" "B" [] (by decide)⟩

/-- A concrete transactions dataframe: two rows with lead times 4 and 2 days
and working-capital cycles 9 and 10 days. -/
def txnRows1 : List TxnRow := [⟨0, 5, 9⟩, ⟨2, 10, 12⟩]

/-- Claim C2.  The payment lead-time series has one entry per transaction,
namely `payment_date - delivery_date` in days, and the average the Analytics
page reports is the mean (sum over length) of that series. -/
theorem payment_lead_times_spec (t : List TxnRow) :
    (compute_payment_lead_times t).length = t.length
    ∧ (∀ i, i < t.length →
        (compute_payment_lead_times t).getD i 0 =
          (t.getD i ⟨0, 0, 0⟩).payment_date - (t.getD i ⟨0, 0, 0⟩).delivery_date)
    ∧ (t ≠ [] → app_avg_payment_lead_time t =
        ((compute_payment_lead_times t).sum : ℚ) / (t.length : ℚ)) := by
  refine ⟨by simp [compute_payment_lead_times], ?_, ?_⟩
  · intro i hi
    have hsome : t[i]? = some (t.get ⟨i, hi⟩) := List.getElem?_eq_getElem hi
    simp [compute_payment_lead_times, List.getD, hsome]
  · intro _
    simp [app_avg_payment_lead_time, app_lead_times, listMean,
      compute_payment_lead_times]

/-- Claim C2, witness: the reported average on a concrete two-row dataframe is
the mean of the per-row lead-time series. -/
theorem payment_lead_times_spec_witness :
    txnRows1 ≠ [] ∧ app_avg_payment_lead_time txnRows1 =
      ((compute_payment_lead_times txnRows1).sum : ℚ) / (txnRows1.length : ℚ) :=
  ⟨by decide, (payment_lead_times_spec txnRows1).2.2 (by decide)⟩

/-- Claim C3.  The working-capital statistic is the arithmetic mean, over the
transaction rows, of `payment_date - transaction_date` in days. -/
theorem working_capital_spec (t : List TxnRow) (_h : t ≠ []) :
    compute_working_capital t =
      (((t.map (fun r => r.payment_date - r.transaction_date) : List ℤ).sum : ℤ) : ℚ) /
        (t.length : ℚ) := by
  unfold compute_working_capital listMean
  rw [List.length_map]

/-- Claim C3, witness: the working-capital mean of the concrete two-row
dataframe, evaluated both ways. -/
theorem working_capital_spec_witness :
    txnRows1 ≠ [] ∧ compute_working_capital txnRows1 =
      (((txnRows1.map (fun r => r.payment_date - r.transaction_date) : List ℤ).sum : ℤ) : ℚ) /
        (txnRows1.length : ℚ) :=
  ⟨by decide, working_capital_spec txnRows1 (by decide)⟩

/-- A concrete logistics dataframe: transit durations 1, 1 and 10 days, so
the mean is 4 and only the 10-day row exceeds `1.5 * mean = 6`. -/
def logRows1 : List LogisticsRow :=
  [⟨"B001", "PortX", "PortY", 0, 1, 100⟩,
   ⟨"B002", "PortY", "PortZ", 3, 4, 120⟩,
   ⟨"B003", "PortX", "PortZ", 5, 15, 400⟩]

/-- Claim C4.  Bottleneck detection returns exactly the rows whose transit
duration (end minus start, in days) strictly exceeds 1.5 times the mean
transit duration, keeping the input order: the result is a sublist of the
input, every returned row exceeds the threshold, every input row exceeding
the threshold is returned, and the `network_model` routine agrees with the
Analytics page inline filter. -/
theorem detect_bottlenecks_spec (l : List LogisticsRow) :
    List.Sublist (detect_bottlenecks l) l
    ∧ (∀ r ∈ detect_bottlenecks l,
        listMean (l.map transitDays) * (3 / 2 : ℚ) < (transitDays r : ℚ))
    ∧ (∀ r ∈ l,
        listMean (l.map transitDays) * (3 / 2 : ℚ) < (transitDays r : ℚ) →
          r ∈ detect_bottlenecks l)
    ∧ detect_bottlenecks l = app_bottlenecks l := by
  refine ⟨List.filter_sublist l, ?_, ?_, rfl⟩
  · intro r hr
    have := List.of_mem_filter hr
    simpa [detect_bottlenecks] using this
  · intro r hr hgt
    refine List.mem_filter.mpr ⟨hr, ?_⟩
    simpa [detect_bottlenecks] using hgt

/-- Claim C4, witness: on the concrete three-row logistics dataframe the
10-day row exceeds the threshold `1.5 * mean = 6`, so the detection keeps
it. -/
theorem detect_bottlenecks_spec_witness :
    (⟨"B003", "PortX", "PortZ", 5, 15, 400⟩ : LogisticsRow) ∈
      detect_bottlenecks logRows1 :=
  (detect_bottlenecks_spec logRows1).2.2.1 ⟨"B003", "PortX", "PortZ", 5, 15, 400⟩
    (by decide) (by norm_num [listMean, logRows1, transitDays])

/-- Claim C5.  The lead-time series and working-capital mean the Analytics page
computes inline coincide with `network_model.compute_payment_lead_times` and
`network_model.compute_working_capital` on the same dataframe. -/
theorem app_analytics_refines_network_model (df : List TxnRow) :
    app_lead_times df = compute_payment_lead_times df
    ∧ app_working_cap df = compute_working_capital df :=
  ⟨rfl, rfl⟩

/-- The role of the head of a filtered user list is the role of the first
matching row. -/
theorem filter_head_role (p : UserRow → Bool) (users : List UserRow) :
    (match users.filter p with
      | [] => none
      | r :: _ => some r.role) = (users.find? p).map (fun r => r.role) := by
  induction users with
  | nil => rfl
  | cons u users ih =>
      by_cases hu : p u
      · simp [List.filter_cons, hu, List.find?_cons_of_pos]
      · simp [List.filter_cons, hu, List.find?_cons_of_neg, ih]

/-- Claim C7.  `validate_login` returns the stored role of the first row whose
username equals the supplied one and whose password field equals the SHA-256
hex digest of the supplied password; its result is `some` exactly when such
a row exists, and a login attempt leaves the credential store unchanged. -/
theorem validate_login_correct (fs : UsersFile) (u p : String) :
    validate_login fs u p =
      ((load_users fs).find? (loginMatches u p)).map (fun r => r.role)
    ∧ ((validate_login fs u p).isSome ↔
        ∃ row ∈ load_users fs, row.username = u ∧ row.password = hash_pw p)
    ∧ validate_login_st fs u p = (validate_login fs u p, fs) := by
  have h1 : validate_login fs u p =
      ((load_users fs).find? (loginMatches u p)).map (fun r => r.role) :=
    filter_head_role (loginMatches u p) (load_users fs)
  refine ⟨h1, ?_, rfl⟩
  rw [h1]
  simp [List.find?_isSome, loginMatches]

/-- Claim C8.  The only failure the loading pipeline handles is CSV parsing:
on a parse failure an error is shown and `df` stays `None`; the demo dataset
is the fallback exactly when no CSV was uploaded, never on a parse
failure. -/
theorem load_pipeline_spec (parse : String → Option (List DemoRow)) (f : String) :
    load_pipeline parse none =
      { df := some load_demo_csv, errorShown := false, demoUsed := true }
    ∧ (parse f = none →
        load_pipeline parse (some f) =
          { df := none, errorShown := true, demoUsed := false })
    ∧ (∀ d, parse f = some d →
        load_pipeline parse (some f) =
          { df := some d, errorShown := false, demoUsed := false }) := by
  refine ⟨rfl, ?_, ?_⟩
  · intro h
    simp [load_pipeline, h]
  · intro d h
    simp [load_pipeline, h]

/-- A parser that always fails, standing for an uploaded file
`pd.read_csv` rejects. -/
def parseFailW : String → Option (List DemoRow) := fun _ => none

/-- Claim C8, witness: with a failing parser and an uploaded file, the
pipeline reports an error, keeps `df = None` and does not use the demo
data. -/
theorem load_pipeline_spec_witness :
    load_pipeline parseFailW (some "data.csv") =
      { df := none, errorShown := true, demoUsed := false } :=
  (load_pipeline_spec parseFailW "data.csv").2.1 rfl

/-- Claim C9.  `network_model.py` imports only `networkx`, so the name `pd`
is unbound in that module: every call of `compute_payment_lead_times`,
`compute_working_capital` or `detect_bottlenecks` raises `NameError` on
every input, while `build_supply_chain_graph`, whose only global is `nx`,
runs to completion. -/
theorem network_model_nameerror_spec :
    (∀ t : List TxnRow, compute_payment_lead_times_run t = .error "NameError: pd")
    ∧ (∀ t : List TxnRow, compute_working_capital_run t = .error "NameError: pd")
    ∧ (∀ l : List LogisticsRow, detect_bottlenecks_run l = .error "NameError: pd")
    ∧ (∀ (t : List TxnRec) (b : List BatchRec) (l : List LogRec),
        build_supply_chain_graph_run t b l = .ok (build_supply_chain_graph t b l)) :=
  ⟨fun _ => rfl, fun _ => rfl, fun _ => rfl, fun _ _ _ => rfl⟩

/-- The usernames currently stored in `users.csv`. -/
def storeUsernames (fs : UsersFile) : List String :=
  (load_users fs).map (fun r => r.username)

/-- A sequence of `save_user` calls, keeping only the evolving file state. -/
def apply_save_users (fs : UsersFile) (ops : List (String × String × String)) :
    UsersFile :=
  ops.foldl (fun s op => (save_user s op.1 op.2.1 op.2.2).2) fs

/-- One `save_user` call keeps the stored usernames duplicate-free. -/
theorem save_user_preserves_nodup (fs : UsersFile) (u p r : String)
    (h : (storeUsernames fs).Nodup) :
    (storeUsernames (save_user fs u p r).2).Nodup := by
  unfold save_user
  by_cases hmem : u ∈ (load_users fs).map (fun x => x.username)
  · rw [if_pos hmem]
    exact h
  · rw [if_neg hmem]
    have h2 : (storeUsernames fs).Nodup ∧ u ∉ storeUsernames fs := ⟨h, hmem⟩
    simp only [storeUsernames, load_users, List.map_append, List.map_cons,
      List.map_nil, List.nodup_append] at h2 ⊢
    exact ⟨h2.1, List.nodup_singleton u, by
      intro a ha hb
      rw [List.mem_singleton] at hb
      exact h2.2 (hb ▸ ha)⟩

/-- Any sequence of `save_user` calls keeps the stored usernames
duplicate-free. -/
theorem nodup_apply_save_users (ops : List (String × String × String)) :
    ∀ fs : UsersFile, (storeUsernames fs).Nodup →
      (storeUsernames (apply_save_users fs ops)).Nodup := by
  induction ops with
  | nil => exact fun fs h => h
  | cons op ops ih =>
      intro fs h
      unfold apply_save_users at ih ⊢
      rw [List.foldl_cons]
      exact ih _ (save_user_preserves_nodup fs op.1 op.2.1 op.2.2 h)

/-- Claim C10.  `save_user` refuses an existing username, returning `False`
and leaving the store untouched; otherwise it appends exactly one row
holding the username, the SHA-256 hex digest of the password and the role,
and returns `True`; hence any sequence of `save_user` calls keeps the
stored usernames pairwise distinct. -/
theorem save_user_spec (fs : UsersFile) (u p r : String) :
    (u ∈ storeUsernames fs → save_user fs u p r = (false, fs))
    ∧ (u ∉ storeUsernames fs →
        save_user fs u p r = (true, some (load_users fs ++ [⟨u, hash_pw p, r⟩])))
    ∧ ((storeUsernames fs).Nodup → (storeUsernames (save_user fs u p r).2).Nodup)
    ∧ (∀ ops : List (String × String × String), (storeUsernames fs).Nodup →
        (storeUsernames (apply_save_users fs ops)).Nodup) := by
  refine ⟨?_, ?_, save_user_preserves_nodup fs u p r,
    fun ops => nodup_apply_save_users ops fs⟩
  · intro h
    have hc : u ∈ (load_users fs).map (fun x => x.username) := h
    simp only [save_user]
    rw [if_pos hc]
  · intro h
    have hc : u ∉ (load_users fs).map (fun x => x.username) := h
    simp only [save_user]
    rw [if_neg hc]

/-- A concrete one-row credential store. -/
def usersW : List UserRow := [⟨"alice", "stored-digest", "Admin"⟩]

/-- Claim C10, witness: saving the taken username `alice` fails and leaves the
store unchanged; saving the fresh username `bob` appends exactly one row
with the hashed password and succeeds. -/
theorem save_user_spec_witness :
    save_user (some usersW) "alice" "pw" "User" = (false, some usersW)
    ∧ save_user (some usersW) "bob" "pw2" "User" =
        (true, some (load_users (some usersW) ++ [⟨"bob", hash_pw "pw2", "User"⟩])) :=
  ⟨(save_user_spec (some usersW) "alice" "pw" "User").1 (by decide),
   (save_user_spec (some usersW) "bob" "pw2" "User").2.1 (by decide)⟩
